import Mathlib

/-!
Verification of the local data-protection subsystem of ai-character-creator
(`services` storage module; the source file contains the service twice, the
two copies differing only in the default character list returned by
`loadData` on first run).

JavaScript strings are modelled as lists of UTF-16 code units (`List Nat`),
byte buffers (`Uint8Array`/`ArrayBuffer`) as lists of bytes (`List Nat`,
each `< 256`).  Platform primitives that the source calls (`btoa`, `atob`,
`TextEncoder`, `TextDecoder`, `escape`/`decodeURIComponent`, Web Crypto)
are modelled explicitly below; the AES-GCM AEAD itself, PBKDF2 key
derivation and JSON serialisation are abstracted into a `Platform`
structure, since they are opaque platform calls in the source.
-/

deriving instance DecidableEq for Except

namespace SecureStorage

/-- Model of the platform base64 alphabet: the character code of the
base64 digit for a 6-bit value (`A-Z`, `a-z`, `0-9`, `+`, `/`). -/
def b64Char (n : Nat) : Nat :=
  if n < 26 then 65 + n
  else if n < 52 then 97 + (n - 26)
  else if n < 62 then 48 + (n - 52)
  else if n = 62 then 43
  else 47

/-- Model of the platform base64 digit value of a character code, `none`
for characters outside the alphabet (including `=`). -/
def b64Val (c : Nat) : Option Nat :=
  if 65 ≤ c ∧ c < 91 then some (c - 65)
  else if 97 ≤ c ∧ c < 123 then some (c - 97 + 26)
  else if 48 ≤ c ∧ c < 58 then some (c - 48 + 52)
  else if c = 43 then some 62
  else if c = 47 then some 63
  else none

/-- Model of the platform `btoa` (together with the source's
`arrayBufferToBase64` loop, which turns each byte into one binary-string
character): canonical padded base64 of a byte list, as character codes. -/
def btoaBytes : List Nat → List Nat
  | [] => []
  | [b0] => [b64Char (b0 / 4), b64Char (b0 % 4 * 16), 61, 61]
  | [b0, b1] => [b64Char (b0 / 4), b64Char (b0 % 4 * 16 + b1 / 16),
                 b64Char (b1 % 16 * 4), 61]
  | b0 :: b1 :: b2 :: rest =>
      b64Char (b0 / 4) :: b64Char (b0 % 4 * 16 + b1 / 16) ::
      b64Char (b1 % 16 * 4 + b2 / 64) :: b64Char (b2 % 64) :: btoaBytes rest

/-- ASCII whitespace stripped by the forgiving-base64 decode. -/
def isB64Ws (c : Nat) : Bool := c = 9 ∨ c = 10 ∨ c = 12 ∨ c = 13 ∨ c = 32

/-- Drop one or two leading `=` (61) from a reversed character list:
the trailing-padding strip of forgiving-base64 decode. -/
def stripPadRev : List Nat → List Nat
  | [] => []
  | [a] => if a = 61 then [] else [a]
  | a :: b :: r => if a = 61 then (if b = 61 then r else b :: r) else a :: b :: r

def stripPad (l : List Nat) : List Nat := (stripPadRev l.reverse).reverse

/-- Decode a padding-free base64 character list four digits at a time. -/
def decode4 : List Nat → Option (List Nat)
  | [] => some []
  | [_] => none
  | [a, b] => do
      let va ← b64Val a
      let vb ← b64Val b
      some [va * 4 + vb / 16]
  | [a, b, c] => do
      let va ← b64Val a
      let vb ← b64Val b
      let vc ← b64Val c
      some [va * 4 + vb / 16, vb % 16 * 16 + vc / 4]
  | a :: b :: c :: d :: rest => do
      let va ← b64Val a
      let vb ← b64Val b
      let vc ← b64Val c
      let vd ← b64Val d
      let tail ← decode4 rest
      some ((va * 4 + vb / 16) :: (vb % 16 * 16 + vc / 4) ::
            (vc % 4 * 64 + vd) :: tail)

/-- Model of the platform `atob` (together with the source's
`base64ToArrayBuffer` loop): the WHATWG forgiving-base64 decode.
Strips ASCII whitespace, strips up to two trailing `=` when the length is
a multiple of four, then fails on a length `≡ 1 (mod 4)` or on any
character outside the alphabet. -/
def atobModel (s : List Nat) : Option (List Nat) :=
  let t := s.filter (fun c => !(isB64Ws c))
  let u := if t.length % 4 = 0 then stripPad t else t
  if u.length % 4 = 1 then none else decode4 u

/-- A valid Unicode scalar value (what a well-formed JS string's code
points range over). -/
def ScalarOK (c : Nat) : Prop := c < 0x110000 ∧ ¬(0xD800 ≤ c ∧ c < 0xE000)

instance (c : Nat) : Decidable (ScalarOK c) := by
  unfold ScalarOK
  infer_instance

/-- Model of the platform `TextEncoder`: UTF-8 encoding of one scalar. -/
def utf8EncodeChar (c : Nat) : List Nat :=
  if c < 0x80 then [c]
  else if c < 0x800 then [0xC0 + c / 64, 0x80 + c % 64]
  else if c < 0x10000 then
    [0xE0 + c / 4096, 0x80 + c / 64 % 64, 0x80 + c % 64]
  else
    [0xF0 + c / 262144, 0x80 + c / 4096 % 64, 0x80 + c / 64 % 64,
     0x80 + c % 64]

/-- Model of the platform `TextEncoder`: UTF-8 encoding of a code-point
list. -/
def utf8Encode (s : List Nat) : List Nat := s.flatMap utf8EncodeChar

/-- Worker for the model of the platform `TextDecoder` in its default
replacement mode (as used by `decryptData`): a byte-at-a-time UTF-8
state machine.  `need` is the number of continuation bytes still
expected (0 = between characters), `acc` the partial scalar, `mn` the
least scalar the current sequence may legally produce (overlong guard).
Invalid sequences yield U+FFFD; on an invalid byte the model resumes
after it rather than re-examining it, a simplification only observable
on invalid inputs, on which no claim depends. -/
def utf8Go (need acc mn : Nat) : List Nat → List Nat
  | [] => if need = 0 then [] else [0xFFFD]
  | b :: bs =>
    if need = 0 then
      if b < 0x80 then b :: utf8Go 0 0 0 bs
      else if b < 0xC0 then 0xFFFD :: utf8Go 0 0 0 bs
      else if b < 0xE0 then utf8Go 1 (b - 0xC0) 0x80 bs
      else if b < 0xF0 then utf8Go 2 (b - 0xE0) 0x800 bs
      else if b < 0xF8 then utf8Go 3 (b - 0xF0) 0x10000 bs
      else 0xFFFD :: utf8Go 0 0 0 bs
    else
      if 0x80 ≤ b ∧ b < 0xC0 then
        if need = 1 then
          if mn ≤ acc * 64 + (b - 0x80) ∧ acc * 64 + (b - 0x80) < 0x110000 ∧
             ¬(0xD800 ≤ acc * 64 + (b - 0x80) ∧ acc * 64 + (b - 0x80) < 0xE000)
          then (acc * 64 + (b - 0x80)) :: utf8Go 0 0 0 bs
          else 0xFFFD :: utf8Go 0 0 0 bs
        else utf8Go (need - 1) (acc * 64 + (b - 0x80)) mn bs
      else 0xFFFD :: utf8Go 0 0 0 bs

/-- Model of the platform `TextDecoder` (UTF-8, replacement mode). -/
def utf8DecodeR (l : List Nat) : List Nat := utf8Go 0 0 0 l

/-- Worker for the model of the source's `binaryToUtf16` shim
(`decodeURIComponent(escape(binary))`): strict UTF-8 decoding that fails
(the platform throws `URIError`) on malformed input — truncated
sequences, stray or missing continuation bytes, overlong forms, encoded
surrogates and values beyond U+10FFFF.  Same state-machine shape as
`utf8Go`. -/
def utf8GoStrict (need acc mn : Nat) : List Nat → Option (List Nat)
  | [] => if need = 0 then some [] else none
  | b :: bs =>
    if need = 0 then
      if b < 0x80 then (utf8GoStrict 0 0 0 bs).map (fun t => b :: t)
      else if b < 0xC2 then none
      else if b < 0xE0 then utf8GoStrict 1 (b - 0xC0) 0x80 bs
      else if b < 0xF0 then utf8GoStrict 2 (b - 0xE0) 0x800 bs
      else if b < 0xF5 then utf8GoStrict 3 (b - 0xF0) 0x10000 bs
      else none
    else
      if 0x80 ≤ b ∧ b < 0xC0 then
        if need = 1 then
          if mn ≤ acc * 64 + (b - 0x80) ∧ acc * 64 + (b - 0x80) < 0x110000 ∧
             ¬(0xD800 ≤ acc * 64 + (b - 0x80) ∧ acc * 64 + (b - 0x80) < 0xE000)
          then (utf8GoStrict 0 0 0 bs).map (fun t => (acc * 64 + (b - 0x80)) :: t)
          else none
        else utf8GoStrict (need - 1) (acc * 64 + (b - 0x80)) mn bs
      else none

/-- Model of the `binaryToUtf16` shim: strict UTF-8 decode. -/
def utf8DecodeStrict (l : List Nat) : Option (List Nat) := utf8GoStrict 0 0 0 l

/-- A code-point list rendered as UTF-16 code units (JS string contents),
splitting astral code points into surrogate pairs. -/
def toUtf16 (cps : List Nat) : List Nat :=
  cps.flatMap (fun c =>
    if c < 0x10000 then [c]
    else [0xD800 + (c - 0x10000) / 1024, 0xDC00 + (c - 0x10000) % 1024])

/-- `legacySimpleXOR` from the source: XOR each code unit of `data`
against the code units of `key`, cycling by index mod key length. -/
def legacySimpleXOR (data key : List Nat) : List Nat :=
  (List.range data.length).map
    (fun i => Nat.xor (data.getD i 0) (key.getD (i % key.length) 0))

inductive LegacyErr where
  | keyMissing
  | badBase64
  | badUtf8
deriving DecidableEq, Repr

/-- `legacyDecrypt` from the source: guard against an empty master key,
`atob` the blob, run the binary-to-UTF-16 shim, then XOR against the
password.  The two platform decode stages can fail; the XOR stage
cannot. -/
def legacyDecrypt (encryptedData masterKey : List Nat) :
    Except LegacyErr (List Nat) :=
  if masterKey = [] then .error .keyMissing
  else
    match atobModel encryptedData with
    | none => .error .badBase64
    | some bytes =>
      match utf8DecodeStrict bytes with
      | none => .error .badUtf8
      | some cps => .ok (legacySimpleXOR (toUtf16 cps) masterKey)

/-! ### Data model and abstract platform primitives -/

/-- Modelled from the spec: `Character`'s exact field shape is owned by
the surrounding application (`types.ts` is not part of the core); the
core treats it opaquely, so only the identifying fields of the source's
built-in default characters are modelled. -/
structure Character where
  id : String
  name : String
deriving DecidableEq, Repr

/-- Modelled from the spec: `AppData` is a structure of named collections
(characters, chat sessions, plugins, lorebooks) whose element shapes the
core treats opaquely; elements of the latter three are modelled as
opaque handles. -/
structure AppData where
  characters : List Character
  chatSessions : List Nat
  plugins : List Nat
  lorebooks : List Nat
deriving DecidableEq, Repr

/-- The source's `zombieApocChar` constant (identifying fields). -/
def zombieApocChar : Character :=
  { id := "default-zombie-apocalypse", name := "Zombie Apocalypse" }

/-- The source's `amyChar` constant (identifying fields). -/
def amyChar : Character := { id := "default-amy-aime", name := "Amy" }

/-- Abstraction of the opaque platform primitives the source calls:
PBKDF2 key derivation (`deriveKey` returns an opaque `CryptoKey`,
modelled as a `Nat` handle), the AES-GCM AEAD core
(`crypto.subtle.encrypt/decrypt` on (key, iv, payload), where `aeadDec`
returns `none` on tag-verification failure), and JSON
(`JSON.parse`/`JSON.stringify` on the opaque `AppData` payload).
`aead_inv` is AES-GCM's decryption-of-encryption law and `aead_bytes`
says ciphertext is made of bytes. -/
structure Platform where
  deriveKey : List Nat → List Nat → Nat
  aeadEnc : Nat → List Nat → List Nat → List Nat
  aeadDec : Nat → List Nat → List Nat → Option (List Nat)
  jsonParse : List Nat → Option AppData
  jsonStringify : AppData → List Nat
  aead_inv : ∀ k iv pt, aeadDec k iv (aeadEnc k iv pt) = some pt
  aead_bytes : ∀ k iv pt, (∀ b ∈ pt, b < 256) →
    ∀ b ∈ aeadEnc k iv pt, b < 256

/-- `encryptData` from the source, with the random 12-byte IV drawn from
`crypto.getRandomValues` passed explicitly: UTF-8 encode the plaintext,
AEAD-encrypt, prepend the IV, base64-encode the combined buffer. -/
def encryptDataM (P : Platform) (data : List Nat) (key : Nat)
    (iv : List Nat) : List Nat :=
  btoaBytes (iv ++ P.aeadEnc key iv (utf8Encode data))

/-- `decryptData` from the source: base64-decode (`atob` throws on
malformed base64), slice the first 12 bytes as IV and the remainder as
ciphertext, AEAD-decrypt (throws on tag mismatch), UTF-8 decode.
`none` models a thrown exception. -/
def decryptDataM (P : Platform) (encryptedBase64 : List Nat) (key : Nat) :
    Option (List Nat) :=
  match atobModel encryptedBase64 with
  | none => none
  | some buf =>
    match P.aeadDec key (buf.take 12) (buf.drop 12) with
    | none => none
    | some pt => some (utf8DecodeR pt)

/-! ### Persistence, session state and the stateful operations -/

/-- The three logical store keys (`STORAGE_KEY_SALT`,
`STORAGE_KEY_PASS_VERIFIER`, `STORAGE_KEY_DATA`, three distinct string
constants in the source). -/
inductive StoreKey where
  | salt
  | verifier
  | data
deriving DecidableEq, Repr

/-- A persisted value: the salt is stored as a raw byte array
(`Uint8Array`), verifier/data blobs (and values migrated from
localStorage) as strings. -/
inductive Val where
  | vBytes (bs : List Nat)
  | vStr (s : List Nat)
deriving DecidableEq, Repr

/-- JS truthiness of a stored value: any `Uint8Array` is truthy, a
string is truthy iff nonempty. -/
def Val.truthy : Val → Bool
  | vBytes _ => true
  | vStr s => !s.isEmpty

/-- JS truthiness of a `getFromDB` result (`undefined` is falsy). -/
def optTruthy : Option Val → Bool
  | none => false
  | some v => v.truthy

/-- The character/byte content of a stored value. -/
def Val.payload : Val → List Nat
  | vBytes bs => bs
  | vStr s => s

/-- The module-level mutable session state of the source:
`masterCryptoKey` and `masterPasswordForMigration`. -/
structure Session where
  masterCryptoKey : Option Nat
  masterPasswordForMigration : Option (List Nat)
deriving DecidableEq, Repr

/-- The world a stateful operation acts on: the session variables, the
IndexedDB object store (`db`), the legacy flat `localStorage` (`ls`),
the ordered log of completed `setToDB` writes (`trace`), the stream of
byte arrays `crypto.getRandomValues` will return (`rng`), and the
schedule of `setToDB` outcomes (`wfail`, `true` = the underlying put
request fails; an exhausted schedule means writes succeed). -/
structure World where
  session : Session
  db : StoreKey → Option Val
  ls : StoreKey → Option (List Nat)
  trace : List StoreKey
  rng : List (List Nat)
  wfail : List Bool

/-- Store `v` under `k` in the object store, logging the write. -/
def World.putDB (w : World) (k : StoreKey) (v : Val) : World :=
  { w with db := fun k' => if k' = k then some v else w.db k',
           trace := w.trace ++ [k] }

/-- `setToDB` from the source; the result's `Except` models the promise
rejecting (per the `wfail` schedule). -/
def setToDB (k : StoreKey) (v : Val) (w : World) : Except Unit Unit × World :=
  match w.wfail with
  | b :: rest =>
      if b then (.error (), { w with wfail := rest })
      else (.ok (), ({ w with wfail := rest }).putDB k v)
  | [] => (.ok (), w.putDB k v)

/-- `crypto.getRandomValues`: draws the next pre-sampled array from the
`rng` stream (theorems hypothesize well-formed entries). -/
def getRandom (n : Nat) (w : World) : List Nat × World :=
  match w.rng with
  | r :: rest => (r, { w with rng := rest })
  | [] => (List.replicate n 0, w)

/-- `migrateKey` from the source: if the key exists in `localStorage`,
copy it into the object store and delete the original; any failure is
logged and swallowed. -/
def migrateKey (k : StoreKey) (w : World) : World :=
  match w.ls k with
  | some v =>
      match setToDB k (Val.vStr v) w with
      | (.ok _, w1) =>
          { w1 with ls := fun k' => if k' = k then none else w1.ls k' }
      | (.error _, w1) => w1
  | none => w

/-- The sentinel plaintext of the source, `'password_is_correct'`. -/
def sentinel : List Nat := "password_is_correct".data.map Char.toNat

/-- Error taxonomy of the thrown errors reachable from the modelled
operations (the spec's names for the source's `throw new Error(...)`
sites and rejected store promises). -/
inductive Err where
  | noSessionKey
  | ioErr
  | dataCorrupt
  | migrationFailed
  | noMasterKey
deriving DecidableEq, Repr

/-- `setMasterPassword` from the source: record the password for
migration, draw a fresh 16-byte salt, derive and install the session
key, encrypt the sentinel into a verifier, persist salt then verifier,
then clear the two legacy `localStorage` records. -/
def setMasterPassword (P : Platform) (password : List Nat) (w : World) :
    Except Unit Unit × World :=
  let w1 := { w with session :=
    { w.session with masterPasswordForMigration := some password } }
  let s := getRandom 16 w1
  let key := P.deriveKey password s.1
  let w3 := { s.2 with session :=
    { s.2.session with masterCryptoKey := some key } }
  let riv := getRandom 12 w3
  let verifier := encryptDataM P sentinel key riv.1
  match setToDB .salt (.vBytes s.1) riv.2 with
  | (.error e, w5) => (.error e, w5)
  | (.ok _, w5) =>
    match setToDB .verifier (.vStr verifier) w5 with
    | (.error e, w6) => (.error e, w6)
    | (.ok _, w6) =>
      (.ok (), { w6 with ls := fun k' =>
        if k' = .verifier ∨ k' = .salt then none else w6.ls k' })

/-- `verifyMasterPassword` from the source: record the password for
potential migration, run the one-time `localStorage` migrations, read
salt and verifier.  No verifier: `false`.  Truthy salt (modern path):
derive the key, install it as the session key, then try to decrypt the
verifier and compare to the sentinel, any exception giving `false`
(a string-valued salt, possible only via the localStorage shim, makes
`deriveKey` throw before the key is installed — also caught).  No/falsy
salt (legacy path): XOR-decrypt the verifier and compare to the
sentinel, any exception giving `false`; the session key is left
untouched. -/
def verifyMasterPassword (P : Platform) (password : List Nat) (w : World) :
    Bool × World :=
  let w1 := { w with session :=
    { w.session with masterPasswordForMigration := some password } }
  let w2 := migrateKey .verifier w1
  let w3 := migrateKey .salt w2
  let saltO := w3.db .salt
  let verO := w3.db .verifier
  if !(optTruthy verO) then (false, w3)
  else
    let ver := (verO.map Val.payload).getD []
    if optTruthy saltO then
      match saltO with
      | some (.vBytes sb) =>
          let key := P.deriveKey password sb
          let w4 := { w3 with session :=
            { w3.session with masterCryptoKey := some key } }
          match decryptDataM P ver key with
          | some dec => (decide (dec = sentinel), w4)
          | none => (false, w4)
      | _ => (false, w3)
    else
      match legacyDecrypt ver password with
      | .ok dec => (decide (dec = sentinel), w3)
      | .error _ => (false, w3)

/-- `saveData` from the source: throw `noSessionKey` when no session key
is held; otherwise stringify, encrypt under the session key with a
fresh IV, and persist under the data key (store failures rethrown). -/
def saveData (P : Platform) (data : AppData) (w : World) :
    Except Err Unit × World :=
  match w.session.masterCryptoKey with
  | none => (.error .noSessionKey, w)
  | some key =>
    let riv := getRandom 12 w
    let enc := encryptDataM P (P.jsonStringify data) key riv.1
    match setToDB .data (.vStr enc) riv.2 with
    | (.ok _, w2) => (.ok (), w2)
    | (.error _, w2) => (.error .ioErr, w2)

/-- The default structure `loadData` returns when no data record exists,
parametrised by the default character list (the only difference between
the two copies of the service in the source file). -/
def defaultData (defChars : List Character) : AppData :=
  { characters := defChars, chatSessions := [], plugins := [],
    lorebooks := [] }

/-- The tail of `loadData`'s legacy-migration block after a successful
legacy decrypt and JSON parse (inline in the source; factored out here
verbatim): draw a fresh 16-byte salt, derive the new key from the held
password, install it as the session key, re-save the data under modern
encryption, then persist the new salt and a freshly encrypted verifier.
Every failure is the caught exception the caller reports as
`migrationFailed`. -/
def migrateLegacy (P : Platform) (pw : List Nat) (d : AppData)
    (w : World) : Except Err AppData × World :=
  let s := getRandom 16 w
  let newKey := P.deriveKey pw s.1
  let w3 := { s.2 with session :=
    { s.2.session with masterCryptoKey := some newKey } }
  match saveData P d w3 with
  | (.error _, w4) => (.error .migrationFailed, w4)
  | (.ok _, w4) =>
    let riv := getRandom 12 w4
    let verifier := encryptDataM P sentinel newKey riv.1
    match setToDB .salt (.vBytes s.1) riv.2 with
    | (.error _, w6) => (.error .migrationFailed, w6)
    | (.ok _, w6) =>
      match setToDB .verifier (.vStr verifier) w6 with
      | (.error _, w7) => (.error .migrationFailed, w7)
      | (.ok _, w7) => (.ok d, w7)

/-- `loadData` from the source, parametrised by the first-run default
character list: run the one-time data-key migration; a falsy data
record gives the default structure.  With a session key (modern path)
decrypt and parse, any exception giving `dataCorrupt`.  Otherwise with
a truthy held migration password (legacy path) XOR-decrypt and parse,
then run `migrateLegacy`; any exception in this block gives
`migrationFailed`.  Otherwise throw `noMasterKey`. -/
def loadDataAux (P : Platform) (defChars : List Character) (w : World) :
    Except Err AppData × World :=
  let w1 := migrateKey .data w
  let encO := w1.db .data
  if !(optTruthy encO) then (.ok (defaultData defChars), w1)
  else
    let enc := (encO.map Val.payload).getD []
    match w1.session.masterCryptoKey with
    | some key =>
        match decryptDataM P enc key with
        | some js =>
            match P.jsonParse js with
            | some d => (.ok d, w1)
            | none => (.error .dataCorrupt, w1)
        | none => (.error .dataCorrupt, w1)
    | none =>
        match w1.session.masterPasswordForMigration with
        | some pw =>
            if pw = [] then (.error .noMasterKey, w1)
            else
              match legacyDecrypt enc pw with
              | .error _ => (.error .migrationFailed, w1)
              | .ok js =>
                match P.jsonParse js with
                | none => (.error .migrationFailed, w1)
                | some d => migrateLegacy P pw d w1
        | none => (.error .noMasterKey, w1)

/-- `loadData` of the file's first copy of the service: first-run
default seeds the two built-in sample characters. -/
def loadData (P : Platform) (w : World) : Except Err AppData × World :=
  loadDataAux P [zombieApocChar, amyChar] w

/-- `loadData` of the file's second copy of the service: first-run
default has all collections empty. -/
def loadData2 (P : Platform) (w : World) : Except Err AppData × World :=
  loadDataAux P [] w

/-! ### Concrete platform and world instances for evaluation -/

/-- The all-empty application data value. -/
def d0 : AppData := defaultData []

/-- A small concrete `Platform` instance used to evaluate the model on
closed inputs: the AEAD tags the payload with a key byte. -/
def P0 : Platform where
  deriveKey := fun pw salt => pw.sum + 1000 * salt.sum + 1
  aeadEnc := fun k _ pt => pt ++ [k % 256]
  aeadDec := fun k _ ct =>
    match ct.reverse with
    | [] => none
    | t :: r => if t = k % 256 then some r.reverse else none
  jsonParse := fun _ => some d0
  jsonStringify := fun _ => []
  aead_inv := by
    intro k iv pt
    simp
  aead_bytes := by
    intro k iv pt h b hb
    rcases List.mem_append.mp hb with h1 | h1
    · exact h b h1
    · simp only [List.mem_singleton] at h1
      subst h1
      exact Nat.mod_lt _ (by omega)

/-- A variant of `P0` whose JSON model agrees with the platform's
`JSON.parse` on the strings the concrete executions below reach: it
accepts exactly the two-character string `'{}'` (code units
`[123, 125]`, which `JSON.parse` parses to the empty object, modelled
by `d0`) and rejects every other string, as `JSON.parse` rejects
non-JSON text such as `'a'`. -/
def P2 : Platform :=
  { P0 with jsonParse := fun s =>
      if s = [123, 125] then some d0 else none }

/-- The fresh session: no key, no held password. -/
def session0 : Session :=
  { masterCryptoKey := none, masterPasswordForMigration := none }

/-- The empty world: fresh session, empty stores, empty streams. -/
def w0 : World :=
  { session := session0, db := fun _ => none, ls := fun _ => none,
    trace := [], rng := [], wfail := [] }

/-- A persisted modern-account world: byte salt `[1]`, verifier
`'AAAA'` (which decodes but fails AEAD verification under `P0`), no
data record, fresh session. -/
def dbModern : StoreKey → Option Val := fun k =>
  match k with
  | .salt => some (.vBytes [1])
  | .verifier => some (.vStr [65, 65, 65, 65])
  | .data => none

def wModern : World := { w0 with db := dbModern }

/-- A `LegacyVerified` world: no session key, held password `'a'`, and a
legacy data blob `'AA=='` persisted under the data key.  That blob
XOR-decrypts to the one-character string `'a'`, which `JSON.parse`
rejects, so migration fails at the parse step. -/
def wLegacy : World :=
  { w0 with
    session := { masterCryptoKey := none,
                 masterPasswordForMigration := some [97] },
    db := fun k =>
      match k with
      | .data => some (.vStr [65, 65, 61, 61])
      | _ => none }

/-- A `LegacyVerified` world whose legacy data blob `'Ghw='` (code units
`[71, 104, 119, 61]`, base64 of the bytes `[26, 28]`) XOR-decrypts
under the held password `'a'` to the string `'{}'`, which `JSON.parse`
accepts — so migration proceeds past the parse step. -/
def wLegacyJson : World :=
  { w0 with
    session := { masterCryptoKey := none,
                 masterPasswordForMigration := some [97] },
    db := fun k =>
      match k with
      | .data => some (.vStr [71, 104, 119, 61])
      | _ => none }

/-- `wLegacyJson` with the first persistence write scheduled to fail. -/
def wLegacyJsonFail : World := { wLegacyJson with wfail := [true] }

example : atobModel [119, 119, 61, 61] = some [195] := by decide
example : utf8DecodeStrict [195] = none := by decide
example : legacyDecrypt [33] [97] = .error .badBase64 := by decide
example : legacyDecrypt [119, 119, 61, 61] [97] = .error .badUtf8 := by
  decide
example : atobModel (btoaBytes [1, 2, 3, 4]) = some [1, 2, 3, 4] := by
  decide

/-! ### Base64 round-trip -/

theorem b64Val_b64Char {n : Nat} (h : n < 64) : b64Val (b64Char n) = some n := by
  revert h
  revert n
  decide

theorem b64Char_ne_pad {n : Nat} (h : n < 64) : b64Char n ≠ 61 := by
  revert h
  revert n
  decide

theorem ws_b64Char {n : Nat} (h : n < 64) : isB64Ws (b64Char n) = false := by
  revert h
  revert n
  decide

theorem btoa_no_ws {bs : List Nat} (h : ∀ b ∈ bs, b < 256) :
    ∀ c ∈ btoaBytes bs, isB64Ws c = false := by
  induction bs using btoaBytes.induct with
  | case1 => intro c hc; simp [btoaBytes] at hc
  | case2 b0 =>
      intro c hc
      have hb0 : b0 < 256 := h b0 (by simp)
      simp only [btoaBytes, List.mem_cons, List.not_mem_nil, or_false] at hc
      rcases hc with rfl | rfl | rfl | rfl
      · exact ws_b64Char (by omega)
      · exact ws_b64Char (by omega)
      · decide
      · decide
  | case3 b0 b1 =>
      intro c hc
      have hb0 : b0 < 256 := h b0 (by simp)
      have hb1 : b1 < 256 := h b1 (by simp)
      simp only [btoaBytes, List.mem_cons, List.not_mem_nil, or_false] at hc
      rcases hc with rfl | rfl | rfl | rfl
      · exact ws_b64Char (by omega)
      · exact ws_b64Char (by omega)
      · exact ws_b64Char (by omega)
      · decide
  | case4 b0 b1 b2 rest ih =>
      intro c hc
      have hb0 : b0 < 256 := h b0 (by simp)
      have hb1 : b1 < 256 := h b1 (by simp)
      have hb2 : b2 < 256 := h b2 (by simp)
      simp only [btoaBytes, List.mem_cons] at hc
      rcases hc with rfl | rfl | rfl | rfl | hc
      · exact ws_b64Char (by omega)
      · exact ws_b64Char (by omega)
      · exact ws_b64Char (by omega)
      · exact ws_b64Char (by omega)
      · exact ih (fun b hb => h b (by simp [hb])) c hc

theorem btoa_len (bs : List Nat) : (btoaBytes bs).length % 4 = 0 := by
  induction bs using btoaBytes.induct with
  | case1 => simp [btoaBytes]
  | case2 b0 => simp [btoaBytes]
  | case3 b0 b1 => simp [btoaBytes]
  | case4 b0 b1 b2 rest ih => simp [btoaBytes]; omega

theorem btoa_ne_nil {bs : List Nat} (h : bs ≠ []) : btoaBytes bs ≠ [] := by
  match bs, h with
  | [b0], _ => simp [btoaBytes]
  | [b0, b1], _ => simp [btoaBytes]
  | b0 :: b1 :: b2 :: rest, _ => simp [btoaBytes]

theorem stripPadRev_len (r : List Nat) :
    r.length - 2 ≤ (stripPadRev r).length ∧ (stripPadRev r).length ≤ r.length := by
  match r with
  | [] => simp [stripPadRev]
  | [a] =>
      by_cases ha : a = 61 <;> simp [stripPadRev, ha]
  | a :: b :: t =>
      by_cases ha : a = 61 <;> by_cases hb : b = 61 <;>
        simp [stripPadRev, ha, hb] <;> omega

theorem stripPad_len (l : List Nat) :
    l.length - 2 ≤ (stripPad l).length ∧ (stripPad l).length ≤ l.length := by
  have h := stripPadRev_len l.reverse
  simpa [stripPad] using h

theorem stripPad_append {xs l : List Nat} (h : 2 ≤ l.length) :
    stripPad (xs ++ l) = xs ++ stripPad l := by
  match hl : l.reverse with
  | [] =>
      have h2 := congrArg List.length hl
      simp only [List.length_reverse, List.length_nil] at h2
      omega
  | [a] =>
      have h2 := congrArg List.length hl
      simp only [List.length_reverse, List.length_cons, List.length_nil] at h2
      omega
  | a :: b :: t =>
      have hrev : (xs ++ l).reverse = a :: b :: (t ++ xs.reverse) := by
        simp [hl]
      simp only [stripPad, hrev, hl]
      by_cases ha : a = 61 <;> by_cases hb : b = 61 <;>
        simp [stripPadRev, ha, hb]

theorem stripPad_four_pp (c0 c1 : Nat) : stripPad [c0, c1, 61, 61] = [c0, c1] := by
  simp [stripPad, stripPadRev]

theorem stripPad_four_p (c0 c1 c2 : Nat) (h : c2 ≠ 61) :
    stripPad [c0, c1, c2, 61] = [c0, c1, c2] := by
  simp [stripPad, stripPadRev, h]

theorem stripPad_four_np (c0 c1 c2 c3 : Nat) (h : c3 ≠ 61) :
    stripPad [c0, c1, c2, c3] = [c0, c1, c2, c3] := by
  simp [stripPad, stripPadRev, h]

theorem decode4_strip_btoa {bs : List Nat} (h : ∀ b ∈ bs, b < 256) :
    decode4 (stripPad (btoaBytes bs)) = some bs := by
  induction bs using btoaBytes.induct with
  | case1 => simp [btoaBytes, stripPad, stripPadRev, decode4]
  | case2 b0 =>
      have hb0 : b0 < 256 := h b0 (by simp)
      have e0 := b64Val_b64Char (n := b0 / 4) (by omega)
      have e1 := b64Val_b64Char (n := b0 % 4 * 16) (by omega)
      rw [btoaBytes, stripPad_four_pp]
      simp [decode4, e0, e1]
      omega
  | case3 b0 b1 =>
      have hb0 : b0 < 256 := h b0 (by simp)
      have hb1 : b1 < 256 := h b1 (by simp)
      have e0 := b64Val_b64Char (n := b0 / 4) (by omega)
      have e1 := b64Val_b64Char (n := b0 % 4 * 16 + b1 / 16) (by omega)
      have e2 := b64Val_b64Char (n := b1 % 16 * 4) (by omega)
      rw [btoaBytes, stripPad_four_p _ _ _ (b64Char_ne_pad (by omega))]
      simp [decode4, e0, e1, e2]
      omega
  | case4 b0 b1 b2 rest ih =>
      have hb0 : b0 < 256 := h b0 (by simp)
      have hb1 : b1 < 256 := h b1 (by simp)
      have hb2 : b2 < 256 := h b2 (by simp)
      have e0 := b64Val_b64Char (n := b0 / 4) (by omega)
      have e1 := b64Val_b64Char (n := b0 % 4 * 16 + b1 / 16) (by omega)
      have e2 := b64Val_b64Char (n := b1 % 16 * 4 + b2 / 64) (by omega)
      have e3 := b64Val_b64Char (n := b2 % 64) (by omega)
      have h0 : b0 / 4 * 4 + (b0 % 4 * 16 + b1 / 16) / 16 = b0 := by omega
      have h1 : (b0 % 4 * 16 + b1 / 16) % 16 * 16 +
          (b1 % 16 * 4 + b2 / 64) / 4 = b1 := by omega
      have h2 : (b1 % 16 * 4 + b2 / 64) % 4 * 64 + b2 % 64 = b2 := by omega
      have ihs := ih (fun b hb => h b (by simp [hb]))
      by_cases hr : rest = []
      · subst hr
        simp only [btoaBytes]
        rw [stripPad_four_np _ _ _ _
          (b64Char_ne_pad (n := b2 % 64) (by omega))]
        simp [decode4, e0, e1, e2, e3, h0, h1, h2]
      · have hlen : 2 ≤ (btoaBytes rest).length := by
          have hl4 := btoa_len rest
          have hnn := btoa_ne_nil hr
          have : (btoaBytes rest).length ≠ 0 := by
            simpa [List.length_eq_zero] using hnn
          omega
        have hsplit : btoaBytes (b0 :: b1 :: b2 :: rest) =
            [b64Char (b0 / 4), b64Char (b0 % 4 * 16 + b1 / 16),
             b64Char (b1 % 16 * 4 + b2 / 64), b64Char (b2 % 64)] ++
            btoaBytes rest := by
          simp [btoaBytes]
        rw [hsplit, stripPad_append hlen]
        simp only [List.cons_append, List.nil_append]
        simp [decode4, e0, e1, e2, e3, h0, h1, h2, ihs]

/-- Round-trip of the modelled platform base64 codec: forgiving decode
inverts canonical encode on any byte list. -/
theorem atob_btoa {bs : List Nat} (h : ∀ b ∈ bs, b < 256) :
    atobModel (btoaBytes bs) = some bs := by
  have hfil : (btoaBytes bs).filter (fun c => !(isB64Ws c)) = btoaBytes bs := by
    rw [List.filter_eq_self]
    intro c hc
    simp [btoa_no_ws h c hc]
  have hlen := btoa_len bs
  have hsl := stripPad_len (btoaBytes bs)
  have hne : (stripPad (btoaBytes bs)).length % 4 ≠ 1 := by omega
  simp only [atobModel, hfil, hlen, if_true, if_pos]
  rw [if_neg hne]
  exact decode4_strip_btoa h

/-! ### UTF-8 round-trip -/

theorem utf8EncodeChar_lt {c : Nat} (h : c < 0x110000) :
    ∀ b ∈ utf8EncodeChar c, b < 256 := by
  intro b hb
  unfold utf8EncodeChar at hb
  by_cases h1 : c < 0x80
  · simp [h1] at hb; omega
  · by_cases h2 : c < 0x800
    · simp [h1, h2] at hb; rcases hb with rfl | rfl <;> omega
    · by_cases h3 : c < 0x10000
      · simp [h1, h2, h3] at hb; rcases hb with rfl | rfl | rfl <;> omega
      · simp [h1, h2, h3] at hb
        rcases hb with rfl | rfl | rfl | rfl <;> omega

theorem utf8Encode_lt {s : List Nat} (h : ∀ c ∈ s, ScalarOK c) :
    ∀ b ∈ utf8Encode s, b < 256 := by
  intro b hb
  simp only [utf8Encode, List.mem_flatMap] at hb
  obtain ⟨c, hc, hbc⟩ := hb
  exact utf8EncodeChar_lt (h c hc).1 b hbc

theorem utf8Go_encodeChar {c : Nat} (rest : List Nat) (h : ScalarOK c) :
    utf8Go 0 0 0 (utf8EncodeChar c ++ rest) = c :: utf8Go 0 0 0 rest := by
  obtain ⟨hlt, hsurr⟩ := h
  unfold utf8EncodeChar
  by_cases h1 : c < 0x80
  · simp only [if_pos h1, List.cons_append, List.nil_append]
    simp [utf8Go, h1]
  · by_cases h2 : c < 0x800
    · simp only [if_neg h1, if_pos h2, List.cons_append, List.nil_append]
      have cA : ¬(0xC0 + c / 64 < 0x80) := by omega
      have cB : ¬(0xC0 + c / 64 < 0xC0) := by omega
      have cC : 0xC0 + c / 64 < 0xE0 := by omega
      have cD : 0x80 ≤ 0x80 + c % 64 ∧ 0x80 + c % 64 < 0xC0 := by omega
      have hv : c / 64 * 64 + c % 64 = c := by omega
      have hchk : 0x80 ≤ c ∧ c < 0x110000 ∧ ¬(0xD800 ≤ c ∧ c < 0xE000) := by
        omega
      simp [utf8Go, cA, cB, cC, cD, hv, hchk]
    · by_cases h3 : c < 0x10000
      · simp only [if_neg h1, if_neg h2, if_pos h3, List.cons_append,
          List.nil_append]
        have cA : ¬(0xE0 + c / 4096 < 0x80) := by omega
        have cB : ¬(0xE0 + c / 4096 < 0xC0) := by omega
        have cC : ¬(0xE0 + c / 4096 < 0xE0) := by omega
        have cD : 0xE0 + c / 4096 < 0xF0 := by omega
        have cE : 0x80 ≤ 0x80 + c / 64 % 64 ∧ 0x80 + c / 64 % 64 < 0xC0 := by
          omega
        have cF : 0x80 ≤ 0x80 + c % 64 ∧ 0x80 + c % 64 < 0xC0 := by omega
        have hv : (c / 4096 * 64 + c / 64 % 64) * 64 + c % 64 = c := by omega
        have hchk : 0x800 ≤ c ∧ c < 0x110000 ∧
            ¬(0xD800 ≤ c ∧ c < 0xE000) := by omega
        simp [utf8Go, cA, cB, cC, cD, cE, cF, hv, hchk]
      · simp only [if_neg h1, if_neg h2, if_neg h3, List.cons_append,
          List.nil_append]
        have cA : ¬(0xF0 + c / 262144 < 0x80) := by omega
        have cB : ¬(0xF0 + c / 262144 < 0xC0) := by omega
        have cC : ¬(0xF0 + c / 262144 < 0xE0) := by omega
        have cD : ¬(0xF0 + c / 262144 < 0xF0) := by omega
        have cE : 0xF0 + c / 262144 < 0xF8 := by omega
        have cF : 0x80 ≤ 0x80 + c / 4096 % 64 ∧ 0x80 + c / 4096 % 64 < 0xC0 := by
          omega
        have cG : 0x80 ≤ 0x80 + c / 64 % 64 ∧ 0x80 + c / 64 % 64 < 0xC0 := by
          omega
        have cH : 0x80 ≤ 0x80 + c % 64 ∧ 0x80 + c % 64 < 0xC0 := by omega
        have hv : ((c / 262144 * 64 + c / 4096 % 64) * 64 + c / 64 % 64) * 64 +
            c % 64 = c := by omega
        have hchk : 0x10000 ≤ c ∧ c < 0x110000 ∧
            ¬(0xD800 ≤ c ∧ c < 0xE000) := by omega
        simp [utf8Go, cA, cB, cC, cD, cE, cF, cG, cH, hv, hchk]

/-- Round-trip of the modelled platform text codec: `TextDecoder` inverts
`TextEncoder` on any list of Unicode scalar values. -/
theorem utf8DecodeR_encode {s : List Nat} (h : ∀ c ∈ s, ScalarOK c) :
    utf8DecodeR (utf8Encode s) = s := by
  unfold utf8DecodeR
  induction s with
  | nil => simp [utf8Encode, utf8Go]
  | cons c t ih =>
      have hc : ScalarOK c := h c (by simp)
      have ht : ∀ x ∈ t, ScalarOK x := fun x hx => h x (by simp [hx])
      simp only [utf8Encode, List.flatMap_cons]
      rw [utf8Go_encodeChar _ hc]
      rw [show t.flatMap utf8EncodeChar = utf8Encode t from rfl, ih ht]

/-! ### Frame lemmas for the stateful layer -/

@[simp]
theorem getRandom_fst_rng {n : Nat} {w : World} {r : List Nat}
    {rest : List (List Nat)} (h : w.rng = r :: rest) :
    getRandom n w = (r, { w with rng := rest }) := by
  unfold getRandom
  rw [h]

theorem getRandom_session (n : Nat) (w : World) :
    (getRandom n w).2.session = w.session := by
  unfold getRandom
  cases h : w.rng <;> simp

theorem getRandom_db (n : Nat) (w : World) :
    (getRandom n w).2.db = w.db := by
  unfold getRandom
  cases h : w.rng <;> simp

theorem getRandom_ls (n : Nat) (w : World) :
    (getRandom n w).2.ls = w.ls := by
  unfold getRandom
  cases h : w.rng <;> simp

theorem getRandom_trace (n : Nat) (w : World) :
    (getRandom n w).2.trace = w.trace := by
  unfold getRandom
  cases h : w.rng <;> simp

theorem getRandom_wfail (n : Nat) (w : World) :
    (getRandom n w).2.wfail = w.wfail := by
  unfold getRandom
  cases h : w.rng <;> simp

theorem setToDB_session (k : StoreKey) (v : Val) (w : World) :
    (setToDB k v w).2.session = w.session := by
  unfold setToDB World.putDB
  cases h : w.wfail with
  | nil => simp
  | cons b rest => cases b <;> simp

theorem setToDB_nofail {k : StoreKey} {v : Val} {w : World}
    (h : w.wfail = []) : setToDB k v w = (.ok (), w.putDB k v) := by
  unfold setToDB
  rw [h]

theorem setToDB_fail {k : StoreKey} {v : Val} {w : World} {rest : List Bool}
    (h : w.wfail = true :: rest) :
    setToDB k v w = (.error (), { w with wfail := rest }) := by
  unfold setToDB
  rw [h]
  simp

theorem migrateKey_noop {k : StoreKey} {w : World} (h : w.ls k = none) :
    migrateKey k w = w := by
  unfold migrateKey
  rw [h]

theorem migrateKey_session (k : StoreKey) (w : World) :
    (migrateKey k w).session = w.session := by
  unfold migrateKey
  cases h : w.ls k with
  | none => rfl
  | some v =>
      have hs := setToDB_session k (Val.vStr v) w
      rcases hst : setToDB k (Val.vStr v) w with ⟨r, w1⟩
      rw [hst] at hs
      simp only [hst]
      cases r <;> simpa using hs

theorem saveData_session (P : Platform) (d : AppData) (w : World) :
    (saveData P d w).2.session = w.session := by
  unfold saveData
  cases hk : w.session.masterCryptoKey with
  | none => rfl
  | some key =>
      have hgs := getRandom_session 12 w
      have hss := setToDB_session StoreKey.data
        (Val.vStr (encryptDataM P (P.jsonStringify d) key (getRandom 12 w).1))
        (getRandom 12 w).2
      rcases hst : setToDB StoreKey.data
        (Val.vStr (encryptDataM P (P.jsonStringify d) key (getRandom 12 w).1))
        (getRandom 12 w).2 with ⟨r, w2⟩
      rw [hst] at hss
      cases r <;> simp_all

theorem migrateLegacy_cases (P : Platform) (pw : List Nat) (d : AppData)
    (w : World) :
    (migrateLegacy P pw d w).1 = .ok d ∨
    (migrateLegacy P pw d w).1 = .error .migrationFailed := by
  unfold migrateLegacy
  dsimp only
  split
  · right; rfl
  · split
    · right; rfl
    · split
      · right; rfl
      · left; rfl

/-- Whatever happens inside the migration tail — including a failing
persistence write — the session afterwards holds the newly derived key
(and the held password is untouched). -/
theorem migrateLegacy_session (P : Platform) (pw : List Nat) (d : AppData)
    (w : World) :
    (migrateLegacy P pw d w).2.session =
      { w.session with
        masterCryptoKey := some (P.deriveKey pw (getRandom 16 w).1) } := by
  unfold migrateLegacy
  dsimp only
  split
  · next e w4 heq =>
      have h4 := (congrArg (fun p => p.2.session) heq).symm.trans
        (saveData_session P d _)
      simp only [] at h4
      simp [h4, getRandom_session]
  · next w4 heq =>
      have h4 := (congrArg (fun p => p.2.session) heq).symm.trans
        (saveData_session P d _)
      simp only [] at h4
      split
      · next e w6 heq2 =>
          have h6 := (congrArg (fun p => p.2.session) heq2).symm.trans
            (setToDB_session _ _ _)
          simp only [] at h6
          simp [h6, getRandom_session, h4]
      · next w6 heq2 =>
          have h6 := (congrArg (fun p => p.2.session) heq2).symm.trans
            (setToDB_session _ _ _)
          simp only [] at h6
          split
          · next e w7 heq3 =>
              have h7 := (congrArg (fun p => p.2.session) heq3).symm.trans
                (setToDB_session _ _ _)
              simp only [] at h7
              simp [h7, h6, getRandom_session, h4]
          · next w7 heq3 =>
              have h7 := (congrArg (fun p => p.2.session) heq3).symm.trans
                (setToDB_session _ _ _)
              simp only [] at h7
              simp [h7, h6, getRandom_session, h4]

/-- With no write failures scheduled, the migration tail succeeds and
its three store writes are, in order: the data record (inside the
re-save), then the salt record, then the verifier record. -/
theorem migrateLegacy_nofail (P : Platform) (pw : List Nat) (d : AppData)
    (w : World) (hwf : w.wfail = []) :
    (migrateLegacy P pw d w).1 = .ok d ∧
    (migrateLegacy P pw d w).2.trace =
      w.trace ++ [StoreKey.data, StoreKey.salt, StoreKey.verifier] := by
  unfold migrateLegacy saveData
  simp [setToDB_nofail, World.putDB, getRandom_wfail, getRandom_session,
    getRandom_db, getRandom_ls, getRandom_trace, hwf]

/-- If the first scheduled store write fails, the migration tail fails
(the re-save's write rejects). -/
theorem migrateLegacy_firstWriteFails (P : Platform) (pw : List Nat)
    (d : AppData) (w : World) {rest : List Bool}
    (hwf : w.wfail = true :: rest) :
    (migrateLegacy P pw d w).1 = .error .migrationFailed := by
  unfold migrateLegacy saveData
  simp [setToDB_fail, getRandom_wfail, hwf]

/-! ### Cipher-level lemmas -/

theorem decryptDataM_encryptDataM (P : Platform) {m : List Nat} (k : Nat)
    {iv : List Nat} (hm : ∀ c ∈ m, ScalarOK c) (hiv : iv.length = 12)
    (hivb : ∀ b ∈ iv, b < 256) :
    decryptDataM P (encryptDataM P m k iv) k = some m := by
  have hpt : ∀ b ∈ utf8Encode m, b < 256 := utf8Encode_lt hm
  have hct := P.aead_bytes k iv (utf8Encode m) hpt
  have hall : ∀ b ∈ iv ++ P.aeadEnc k iv (utf8Encode m), b < 256 := by
    intro b hb
    rcases List.mem_append.mp hb with h | h
    · exact hivb b h
    · exact hct b h
  have ht : (iv ++ P.aeadEnc k iv (utf8Encode m)).take 12 = iv := by
    rw [← hiv]
    exact List.take_left _ _
  have hd : (iv ++ P.aeadEnc k iv (utf8Encode m)).drop 12 =
      P.aeadEnc k iv (utf8Encode m) := by
    rw [← hiv]
    exact List.drop_left _ _
  unfold decryptDataM encryptDataM
  simp only [atob_btoa hall, ht, hd, P.aead_inv]
  rw [utf8DecodeR_encode hm]

theorem encryptDataM_iv_inj (P : Platform) {m : List Nat} (k : Nat)
    {iv1 iv2 : List Nat}
    (hm : ∀ c ∈ m, ScalarOK c)
    (h1 : iv1.length = 12) (h1b : ∀ b ∈ iv1, b < 256)
    (h2 : iv2.length = 12) (h2b : ∀ b ∈ iv2, b < 256)
    (he : encryptDataM P m k iv1 = encryptDataM P m k iv2) : iv1 = iv2 := by
  have hpt : ∀ b ∈ utf8Encode m, b < 256 := utf8Encode_lt hm
  have hall1 : ∀ b ∈ iv1 ++ P.aeadEnc k iv1 (utf8Encode m), b < 256 := by
    intro b hb
    rcases List.mem_append.mp hb with h | h
    · exact h1b b h
    · exact P.aead_bytes k iv1 (utf8Encode m) hpt b h
  have hall2 : ∀ b ∈ iv2 ++ P.aeadEnc k iv2 (utf8Encode m), b < 256 := by
    intro b hb
    rcases List.mem_append.mp hb with h | h
    · exact h2b b h
    · exact P.aead_bytes k iv2 (utf8Encode m) hpt b h
  have hsome : some (iv1 ++ P.aeadEnc k iv1 (utf8Encode m)) =
      some (iv2 ++ P.aeadEnc k iv2 (utf8Encode m)) := by
    rw [← atob_btoa hall1, ← atob_btoa hall2]
    unfold encryptDataM at he
    rw [he]
  have happ := Option.some.inj hsome
  have htake := congrArg (List.take 12) happ
  rw [← h1] at htake
  rw [List.take_left] at htake
  rw [h1, ← h2, List.take_left] at htake
  exact htake

/-! ### C6: legacyDecrypt failure conditions -/

/-- C6 (amended): `legacyDecrypt` throws `LegacyKeyMissing` exactly when
the password is empty, and for non-empty passwords the XOR stage itself
never throws: whenever the base64 decode and the binary-to-UTF-16 shim
both succeed the call returns the XOR stream.  (The original claim that
the cipher never throws at all for non-empty passwords is refuted by
`C6_counterexample`: the two platform decode stages inside it can
throw.) -/
theorem C6_legacyDecrypt_failure (enc pw : List Nat) :
    (pw = [] → legacyDecrypt enc pw = .error .keyMissing) ∧
    (pw ≠ [] → legacyDecrypt enc pw ≠ .error .keyMissing) ∧
    (pw ≠ [] → ∀ bytes cps, atobModel enc = some bytes →
      utf8DecodeStrict bytes = some cps →
      legacyDecrypt enc pw = .ok (legacySimpleXOR (toUtf16 cps) pw)) := by
  refine ⟨?_, ?_, ?_⟩
  · intro h
    unfold legacyDecrypt
    rw [if_pos h]
  · intro h
    unfold legacyDecrypt
    rw [if_neg h]
    cases ha : atobModel enc with
    | none => simp
    | some bytes =>
        cases hu : utf8DecodeStrict bytes <;> simp [hu]
  · intro h bytes cps ha hu
    unfold legacyDecrypt
    rw [if_neg h, ha]
    simp [hu]

/-- C6 witness: concrete evaluation with the non-empty password `'a'`
and blob `'AA=='`, through both platform decode stages. -/
theorem C6_witness :
    legacyDecrypt [65, 65, 61, 61] [97] ≠ .error .keyMissing ∧
    legacyDecrypt [65, 65, 61, 61] [97] =
      .ok (legacySimpleXOR (toUtf16 [0]) [97]) := by
  obtain ⟨-, h2, h3⟩ := C6_legacyDecrypt_failure [65, 65, 61, 61] [97]
  exact ⟨h2 (by decide), h3 (by decide) [0] [0] (by decide) (by decide)⟩

/-- C6 counterexample: with the non-empty password `'a'`, the blob `'!'`
makes the base64 decode throw and the blob `'ww=='` (decoding to the
lone byte 0xC3) makes the binary-to-UTF-16 shim throw, so the claim
that the cipher never throws for non-empty passwords is false. -/
theorem C6_counterexample :
    legacyDecrypt [33] [97] = .error .badBase64 ∧
    legacyDecrypt [119, 119, 61, 61] [97] = .error .badUtf8 := by
  decide

/-! ### C7 and C8: the AEAD round-trip laws -/

/-- C7: for every platform satisfying the AES-GCM laws, every plaintext
(of Unicode scalars) and key, and any two well-formed fresh 12-byte IVs,
decrypt-of-encrypt returns the plaintext for both calls, and distinct
IVs (what per-call CSPRNG nonce generation provides) give distinct
ciphertexts. -/
theorem C7_roundtrip (P : Platform) (m : List Nat) (k : Nat)
    (iv1 iv2 : List Nat) (hm : ∀ c ∈ m, ScalarOK c)
    (h1 : iv1.length = 12) (h1b : ∀ b ∈ iv1, b < 256)
    (h2 : iv2.length = 12) (h2b : ∀ b ∈ iv2, b < 256) :
    decryptDataM P (encryptDataM P m k iv1) k = some m ∧
    decryptDataM P (encryptDataM P m k iv2) k = some m ∧
    (iv1 ≠ iv2 → encryptDataM P m k iv1 ≠ encryptDataM P m k iv2) := by
  refine ⟨decryptDataM_encryptDataM P k hm h1 h1b,
    decryptDataM_encryptDataM P k hm h2 h2b, ?_⟩
  intro hne he
  exact hne (encryptDataM_iv_inj P k hm h1 h1b h2 h2b he)

/-- C7 witness: the round-trip laws evaluated on the concrete platform
`P0`, a plaintext containing an astral scalar, and two distinct IVs. -/
theorem C7_witness :
    decryptDataM P0 (encryptDataM P0 [104, 0x10400] 5
      (List.replicate 12 0)) 5 = some [104, 0x10400] ∧
    decryptDataM P0 (encryptDataM P0 [104, 0x10400] 5
      (1 :: List.replicate 11 0)) 5 = some [104, 0x10400] ∧
    (List.replicate 12 0 ≠ 1 :: List.replicate 11 (0 : Nat) →
      encryptDataM P0 [104, 0x10400] 5 (List.replicate 12 0) ≠
      encryptDataM P0 [104, 0x10400] 5 (1 :: List.replicate 11 0)) :=
  C7_roundtrip P0 [104, 0x10400] 5 (List.replicate 12 0)
    (1 :: List.replicate 11 0) (by decide) (by decide) (by decide)
    (by decide) (by decide)

/-- C8: decrypting a blob produced under `k1` with a different key `k2`
fails (returns no value; `none` models the thrown `DecryptionFailed`),
given that the platform AEAD rejects the cross-key decryption — which is
exactly AES-GCM's tag check on a wrong key. -/
theorem C8_wrong_key (P : Platform) (m : List Nat) (k1 k2 : Nat)
    (iv : List Nat) (hm : ∀ c ∈ m, ScalarOK c)
    (hiv : iv.length = 12) (hivb : ∀ b ∈ iv, b < 256) (_hk : k1 ≠ k2)
    (hrej : P.aeadDec k2 iv (P.aeadEnc k1 iv (utf8Encode m)) = none) :
    decryptDataM P (encryptDataM P m k1 iv) k2 = none := by
  have hpt : ∀ b ∈ utf8Encode m, b < 256 := utf8Encode_lt hm
  have hall : ∀ b ∈ iv ++ P.aeadEnc k1 iv (utf8Encode m), b < 256 := by
    intro b hb
    rcases List.mem_append.mp hb with h | h
    · exact hivb b h
    · exact P.aead_bytes k1 iv (utf8Encode m) hpt b h
  have ht : (iv ++ P.aeadEnc k1 iv (utf8Encode m)).take 12 = iv := by
    rw [← hiv]
    exact List.take_left _ _
  have hd : (iv ++ P.aeadEnc k1 iv (utf8Encode m)).drop 12 =
      P.aeadEnc k1 iv (utf8Encode m) := by
    rw [← hiv]
    exact List.drop_left _ _
  unfold decryptDataM encryptDataM
  simp only [atob_btoa hall, ht, hd, hrej]

/-- C8 witness: concrete cross-key decryption failure on `P0`, whose
AEAD authenticates the key via its appended tag byte. -/
theorem C8_witness :
    decryptDataM P0 (encryptDataM P0 [104] 0 (List.replicate 12 0)) 1 =
      none :=
  C8_wrong_key P0 [104] 0 1 (List.replicate 12 0) (by decide) (by decide)
    (by decide) (by decide) (by decide)

/-! ### C9: saveData without a session key -/

/-- C9: for every application-data value, calling `saveData` while no
session key is held (the `Locked` and `LegacyVerified` states) throws
`NoSessionKey` and leaves the world — in particular the persistence
store and its write log — completely unchanged. -/
theorem C9_saveData_no_key (P : Platform) (d : AppData) (w : World)
    (h : w.session.masterCryptoKey = none) :
    (saveData P d w).1 = .error .noSessionKey ∧ (saveData P d w).2 = w := by
  unfold saveData
  rw [h]
  exact ⟨rfl, rfl⟩

/-- C9 witness: the empty world holds no session key, and saving fails
there without writing. -/
theorem C9_witness :
    (saveData P0 d0 w0).1 = .error .noSessionKey ∧
    (saveData P0 d0 w0).2 = w0 :=
  C9_saveData_no_key P0 d0 w0 rfl

/-! ### C5: loadData with no data record -/

/-- C5 (amended): in every session state, if no data record was ever
written (absent from the store and from the legacy flat store), both
copies of `loadData` return their first-run default without error; the
chat-session, plugin and lorebook collections are empty in both, but
only the second copy's character collection is empty — the first seeds
the two built-in sample characters (see `C5_counterexample`). -/
theorem C5_default_data (P : Platform) (w : World)
    (hls : w.ls .data = none) (hdb : w.db .data = none) :
    (loadData P w).1 = .ok (defaultData [zombieApocChar, amyChar]) ∧
    (loadData2 P w).1 = .ok (defaultData []) ∧
    (defaultData [zombieApocChar, amyChar]).chatSessions = [] ∧
    (defaultData [zombieApocChar, amyChar]).plugins = [] ∧
    (defaultData [zombieApocChar, amyChar]).lorebooks = [] := by
  refine ⟨?_, ?_, rfl, rfl, rfl⟩
  · unfold loadData loadDataAux
    rw [migrateKey_noop hls]
    simp [hdb, optTruthy]
  · unfold loadData2 loadDataAux
    rw [migrateKey_noop hls]
    simp [hdb, optTruthy]

/-- C5 witness: first-run load on the empty world, both versions. -/
theorem C5_witness :
    (loadData P0 w0).1 = .ok (defaultData [zombieApocChar, amyChar]) ∧
    (loadData2 P0 w0).1 = .ok (defaultData []) ∧
    (defaultData [zombieApocChar, amyChar]).chatSessions = [] ∧
    (defaultData [zombieApocChar, amyChar]).plugins = [] ∧
    (defaultData [zombieApocChar, amyChar]).lorebooks = [] :=
  C5_default_data P0 w0 rfl rfl

/-- C5 counterexample: the first copy of `loadData` (source lines
394–397) returns a default whose character collection is NOT empty — it
contains the two built-in sample characters — refuting the claim that
the default structure has an empty character collection. -/
theorem C5_counterexample :
    (loadData P0 w0).1 = .ok (defaultData [zombieApocChar, amyChar]) ∧
    (defaultData [zombieApocChar, amyChar]).characters ≠ [] := by
  exact ⟨rfl, by decide⟩

/-! ### C10: the absent-data check precedes the session-state check -/

/-- C10: `loadData` tests for a falsy data record before looking at the
session: with no data record, every session state (including `Locked`)
gets the default structure and no error; and the no-master-key error is
raised only when a (truthy) data record exists, no session key is held,
and no usable (non-empty) migration password is held. -/
theorem C10_absent_checked_first (P : Platform) (dc : List Character)
    (w : World) (hls : w.ls .data = none) :
    (optTruthy (w.db .data) = false →
      (loadDataAux P dc w).1 = .ok (defaultData dc)) ∧
    ((loadDataAux P dc w).1 = .error .noMasterKey →
      optTruthy (w.db .data) = true ∧
      w.session.masterCryptoKey = none ∧
      (w.session.masterPasswordForMigration = none ∨
       w.session.masterPasswordForMigration = some [])) := by
  constructor
  · intro ht
    unfold loadDataAux
    rw [migrateKey_noop hls]
    simp [ht]
  · intro h
    unfold loadDataAux at h
    rw [migrateKey_noop hls] at h
    by_cases hdt : optTruthy (w.db .data)
    · refine ⟨hdt, ?_⟩
      simp only [hdt, Bool.not_true, Bool.false_eq_true, if_false] at h
      rcases hkey : w.session.masterCryptoKey with _ | k
      · simp only [hkey] at h
        rcases hpw : w.session.masterPasswordForMigration with _ | pw
        · exact ⟨rfl, Or.inl rfl⟩
        · simp only [hpw] at h
          by_cases hpe : pw = []
          · exact ⟨rfl, Or.inr (by rw [hpe])⟩
          · exfalso
            rw [if_neg hpe] at h
            rcases hld : legacyDecrypt
              (((w.db StoreKey.data).map Val.payload).getD []) pw with er | js
            · simp [hld] at h
            · simp only [hld] at h
              rcases hp2 : P.jsonParse js with _ | d
              · simp [hp2] at h
              · simp only [hp2] at h
                rcases migrateLegacy_cases P pw d w with hc | hc <;>
                  simp [hc] at h
      · exfalso
        simp only [hkey] at h
        rcases hdec : decryptDataM P
          (((w.db StoreKey.data).map Val.payload).getD []) k with _ | js
        · simp [hdec] at h
        · simp only [hdec] at h
          rcases hp2 : P.jsonParse js with _ | d <;> simp [hp2] at h
    · exfalso
      simp only [Bool.not_eq_true] at hdt
      simp [hdt] at h

/-- C10 witness: with no data record the `Locked` empty world loads the
default, and with a data record but neither key nor password held the
load fails with exactly the no-master-key error. -/
theorem C10_witness :
    (loadDataAux P0 [] w0).1 = .ok (defaultData []) ∧
    optTruthy (({ w0 with db := fun k =>
      if k = .data then some (.vStr [65]) else none } : World).db .data) =
      true := by
  refine ⟨(C10_absent_checked_first P0 [] w0 rfl).1 rfl, ?_⟩
  have h2 := (C10_absent_checked_first P0 []
    { w0 with db := fun k => if k = .data then some (.vStr [65]) else none }
    rfl).2 (by decide)
  exact h2.1

/-! ### C1: the modern verification path and the session key -/

/-- C1 (amended): on the modern path (byte salt record present, truthy
verifier, no pending legacy-location migrations), a failing verifier
decryption still makes `verifyMasterPassword` return `false` — but the
session key is NOT left unset: the key derived from the attempted
password is installed before the verifier is decrypted, so it is set
regardless of the verification outcome.  (The original claim that the
key is set only on successful verification is refuted by
`C1_counterexample`.) -/
theorem C1_verify_modern (P : Platform) (password : List Nat) (w : World)
    (sb vs : List Nat)
    (hls1 : w.ls .verifier = none) (hls2 : w.ls .salt = none)
    (hsalt : w.db .salt = some (.vBytes sb))
    (hver : w.db .verifier = some (.vStr vs)) (hvs : vs ≠ []) :
    (verifyMasterPassword P password w).2.session.masterCryptoKey =
      some (P.deriveKey password sb) ∧
    (decryptDataM P vs (P.deriveKey password sb) = none →
      (verifyMasterPassword P password w).1 = false) := by
  unfold verifyMasterPassword
  dsimp only
  rw [migrateKey_noop (w := { w with session :=
    { w.session with masterPasswordForMigration := some password } }) hls1]
  rw [migrateKey_noop (w := { w with session :=
    { w.session with masterPasswordForMigration := some password } }) hls2]
  dsimp only
  rw [hsalt, hver]
  have hvt : (Val.vStr vs).truthy = true := by
    simp [Val.truthy, hvs]
  constructor
  · rcases hdec : decryptDataM P vs (P.deriveKey password sb) with _ | dec <;>
      simp [optTruthy, Val.truthy, Val.payload, hvs, hdec]
  · intro hd
    simp [optTruthy, Val.truthy, Val.payload, hvs, hd]

/-- C1 counterexample: starting from an unset session key, a modern-path
verification whose decryption fails returns `false` yet leaves the
session key SET (to the key derived from the attempted password),
refuting the claim that the key is set only on successful
verification. -/
theorem C1_counterexample :
    wModern.session.masterCryptoKey = none ∧
    (verifyMasterPassword P0 [97] wModern).1 = false ∧
    (verifyMasterPassword P0 [97] wModern).2.session.masterCryptoKey ≠
      none := by
  refine ⟨rfl, ?_, ?_⟩ <;> decide

/-- C1 witness: the amended theorem evaluated on the concrete modern
world. -/
theorem C1_witness :
    (verifyMasterPassword P0 [97] wModern).2.session.masterCryptoKey =
      some (P0.deriveKey [97] [1]) ∧
    (decryptDataM P0 [65, 65, 65, 65] (P0.deriveKey [97] [1]) = none →
      (verifyMasterPassword P0 [97] wModern).1 = false) :=
  C1_verify_modern P0 [97] wModern [1] [65, 65, 65, 65] rfl rfl rfl rfl
    (by decide)

/-! ### C2: failure behaviour of the legacy migration -/

/-- C2 (amended): in a `LegacyVerified` session (no key, non-empty held
password) with a persisted legacy data blob, every failing step of the
migration surfaces `MigrationFailed` (and no other error is possible).
If the failure happens before key derivation — legacy decrypt or JSON
parse — the world is completely unchanged, so the session remains
`LegacyVerified` and a retry repeats the legacy decryption.  But if a
persistence write fails after key derivation (here: the re-save, the
first scheduled write), the newly derived key is already installed, so
the session key does NOT stay unset and a retry takes the modern path.
(The original claim that the session always remains `LegacyVerified`
is refuted by `C2_counterexample`.) -/
theorem C2_migration_failure (P : Platform) (dc : List Character)
    (w : World) (ds p : List Nat)
    (hls : w.ls .data = none)
    (hdata : w.db .data = some (.vStr ds)) (hds : ds ≠ [])
    (hkey : w.session.masterCryptoKey = none)
    (hpw : w.session.masterPasswordForMigration = some p) (hp : p ≠ []) :
    (∀ er, legacyDecrypt ds p = .error er →
      (loadDataAux P dc w).1 = .error .migrationFailed ∧
      (loadDataAux P dc w).2 = w) ∧
    (∀ js, legacyDecrypt ds p = .ok js → P.jsonParse js = none →
      (loadDataAux P dc w).1 = .error .migrationFailed ∧
      (loadDataAux P dc w).2 = w) ∧
    (∀ js d rest, legacyDecrypt ds p = .ok js → P.jsonParse js = some d →
      w.wfail = true :: rest →
      (loadDataAux P dc w).1 = .error .migrationFailed ∧
      (loadDataAux P dc w).2.session.masterCryptoKey =
        some (P.deriveKey p (getRandom 16 w).1)) ∧
    (∀ e, (loadDataAux P dc w).1 = .error e → e = .migrationFailed) := by
  refine ⟨?_, ?_, ?_, ?_⟩
  · intro er hld
    unfold loadDataAux
    rw [migrateKey_noop hls]
    simp [hdata, optTruthy, Val.truthy, Val.payload, hds, hkey, hpw, hp, hld]
  · intro js hld hparse
    unfold loadDataAux
    rw [migrateKey_noop hls]
    simp [hdata, optTruthy, Val.truthy, Val.payload, hds, hkey, hpw, hp, hld,
      hparse]
  · intro js d rest hld hparse hwf
    have h1 := migrateLegacy_firstWriteFails P p d w hwf
    have h2 := migrateLegacy_session P p d w
    unfold loadDataAux
    rw [migrateKey_noop hls]
    simp [hdata, optTruthy, Val.truthy, Val.payload, hds, hkey, hpw, hp, hld,
      hparse, h1, h2]
  · intro e he
    unfold loadDataAux at he
    rw [migrateKey_noop hls] at he
    simp [hdata, optTruthy, Val.truthy, Val.payload, hds, hkey, hpw, hp]
      at he
    rcases hld : legacyDecrypt ds p with er | js
    · simp only [hld] at he
      simp at he
      exact he.symm
    · simp only [hld] at he
      rcases hp2 : P.jsonParse js with _ | d
      · simp only [hp2] at he
        simp at he
        exact he.symm
      · simp only [hp2] at he
        rcases migrateLegacy_cases P p d w with hc | hc <;> rw [hc] at he
        · exact absurd he (by simp)
        · simp at he
          exact he.symm

/-- C2 counterexample: the legacy blob `'Ghw='` decrypts to `'{}'`,
which `JSON.parse` accepts, so migration proceeds to key derivation;
when the first persistence write then fails, `loadData` surfaces
`MigrationFailed` but the session key has already been set to the newly
derived key, so the session does NOT remain `LegacyVerified` and a
retry would take the modern path. -/
theorem C2_counterexample :
    (loadDataAux P2 [] wLegacyJsonFail).1 = .error .migrationFailed ∧
    (loadDataAux P2 [] wLegacyJsonFail).2.session.masterCryptoKey ≠
      none := by
  refine ⟨?_, ?_⟩ <;> decide

/-- C2 witness: a pre-derivation failure — the blob `'AA=='` decrypts to
`'a'`, which `JSON.parse` rejects — surfaces `MigrationFailed` with the
world, session included, unchanged. -/
theorem C2_witness :
    (loadDataAux P2 [] wLegacy).1 = .error .migrationFailed ∧
    (loadDataAux P2 [] wLegacy).2 = wLegacy := by
  obtain ⟨-, hb, -, -⟩ := C2_migration_failure P2 [] wLegacy
    [65, 65, 61, 61] [97] rfl rfl (by decide) rfl rfl (by decide)
  exact hb [97] (by decide) (by decide)

/-! ### C3: the order of the migration writes -/

/-- C3 (amended): a successful legacy migration performs its three
persistence writes in the order: data record first (the re-save), then
the salt record, then the verifier record.  (The order claimed in the
spec — salt, verifier, data — is refuted by `C3_counterexample`.) -/
theorem C3_write_order (P : Platform) (dc : List Character) (w : World)
    (ds p js : List Nat) (d : AppData)
    (hls : w.ls .data = none)
    (hdata : w.db .data = some (.vStr ds)) (hds : ds ≠ [])
    (hkey : w.session.masterCryptoKey = none)
    (hpw : w.session.masterPasswordForMigration = some p) (hp : p ≠ [])
    (hld : legacyDecrypt ds p = .ok js) (hparse : P.jsonParse js = some d)
    (hwf : w.wfail = []) :
    (loadDataAux P dc w).1 = .ok d ∧
    (loadDataAux P dc w).2.trace =
      w.trace ++ [StoreKey.data, StoreKey.salt, StoreKey.verifier] := by
  have hm := migrateLegacy_nofail P p d w hwf
  unfold loadDataAux
  rw [migrateKey_noop hls]
  simp [hdata, optTruthy, Val.truthy, Val.payload, hds, hkey, hpw, hp, hld,
    hparse, hm.1, hm.2]

/-- C3 counterexample: on a concrete successful migration — the legacy
blob `'Ghw='` decrypts to `'{}'`, which `JSON.parse` accepts — the
write log is `[data, salt, verifier]`, not the claimed
`[salt, verifier, data]`. -/
theorem C3_counterexample :
    (loadDataAux P2 [] wLegacyJson).2.trace =
      [StoreKey.data, StoreKey.salt, StoreKey.verifier] ∧
    ([StoreKey.data, StoreKey.salt, StoreKey.verifier] ≠
      [StoreKey.salt, StoreKey.verifier, StoreKey.data]) := by
  refine ⟨?_, ?_⟩ <;> decide

/-- C3 witness: the amended theorem evaluated on the concrete legacy
world whose blob decrypts to the `JSON.parse`-accepted string `'{}'`. -/
theorem C3_witness :
    (loadDataAux P2 [] wLegacyJson).1 = .ok d0 ∧
    (loadDataAux P2 [] wLegacyJson).2.trace =
      wLegacyJson.trace ++
        [StoreKey.data, StoreKey.salt, StoreKey.verifier] :=
  C3_write_order P2 [] wLegacyJson [71, 104, 119, 61] [97] [123, 125] d0
    rfl rfl (by decide) rfl rfl (by decide) (by decide) (by decide) rfl

/-! ### C4: retention of the plaintext password -/

/-- C4 (amended): the plaintext password is retained in the module-level
`masterPasswordForMigration` variable by EVERY password operation:
`setMasterPassword` (a purely modern-path operation) and
`verifyMasterPassword` (modern or legacy path) both store it
unconditionally, and `loadData` — including a completed or failed
migration — never clears it.  (The original claim that no plaintext
copy is retained outside the legacy-login window is refuted by
`C4_counterexample`.) -/
theorem C4_password_retention (P : Platform) (pw : List Nat)
    (dc : List Character) (w : World) :
    (setMasterPassword P pw w).2.session.masterPasswordForMigration =
      some pw ∧
    (verifyMasterPassword P pw w).2.session.masterPasswordForMigration =
      some pw ∧
    (loadDataAux P dc w).2.session.masterPasswordForMigration =
      w.session.masterPasswordForMigration := by
  refine ⟨?_, ?_, ?_⟩
  · unfold setMasterPassword
    dsimp only
    split
    · next e w5 heq =>
        have h5 := (congrArg (fun q => q.2.session) heq).symm.trans
          (setToDB_session _ _ _)
        simp only [] at h5
        simp [h5, getRandom_session]
    · next w5 heq =>
        have h5 := (congrArg (fun q => q.2.session) heq).symm.trans
          (setToDB_session _ _ _)
        simp only [] at h5
        split
        · next e w6 heq2 =>
            have h6 := (congrArg (fun q => q.2.session) heq2).symm.trans
              (setToDB_session _ _ _)
            simp only [] at h6
            simp [h6, h5, getRandom_session]
        · next w6 heq2 =>
            have h6 := (congrArg (fun q => q.2.session) heq2).symm.trans
              (setToDB_session _ _ _)
            simp only [] at h6
            simp [h6, h5, getRandom_session]
  · unfold verifyMasterPassword
    dsimp only
    split <;> try split <;> try split <;> try split
    all_goals simp [migrateKey_session]
  · unfold loadDataAux
    dsimp only
    split
    · simp [migrateKey_session]
    · split <;> try split <;> try split <;> try split <;> try split <;>
        try split
      all_goals simp [migrateKey_session, migrateLegacy_session]

/-- C4 counterexample: immediately after a modern-path
`setMasterPassword` — no legacy-login window involved — the module
still holds the plaintext password, refuting the claim that no
plaintext copy is retained outside that window. -/
theorem C4_counterexample :
    ((setMasterPassword P0 [104, 105] w0).2.session).masterPasswordForMigration
      = some [104, 105] ∧
    (some ([104, 105] : List Nat) ≠ none) := by
  refine ⟨?_, ?_⟩ <;> decide

end SecureStorage
